import Mathlib

/-!
Verification of the fmap plotting-wrapper module (src/fmap.py).

The module is a thin wrapper over cartopy/matplotlib.  The pieces with
decision logic are embedded here:

* `lon_formatter` / `lat_formatter` — the coordinate tick formatters
  defined inside `one_plot`, `row_plot` and `multi_plot`
  (src/fmap.py lines 53-66, repeated verbatim at 92-105 and 133-146).
  Python degree values are modelled as `Int`; `'{}'.format(abs(x))` is
  `Nat.repr x.natAbs`; a Python function that falls off the end returns
  `None`, so the formatters return `Option String`.
* `isiterable` / `plot_var` / `plot_town` / `save` and friends — the
  operations that take an axis argument; an axis is modelled by whether
  `iter()` succeeds on it.  Fallible operations return `Except`.
* `one_plot` / `row_plot` / `multi_plot` — the figure builders, modelled
  as the trace of calls they issue to the external library, so that the
  forwarding of the bounding box can be stated.
* `multi_index` — the subplot addressing `axs[a_n//rows, a_n%cols]`
  used by the configuration loop of `multi_plot` (line 123 ff.).

The axes-grid normalizer and the label-placement mode are described in
the specification but absent from src/fmap.py; they are modelled from
the spec and marked as such in their doc comments.
-/

namespace Fmap

/-- Longitude tick formatter, from src/fmap.py lines 53-59:
`if x==0 or x==180` return `'{}°'.format(abs(x))`,
`elif x<0` return `'{}°W'.format(abs(x))`,
`elif x>0` return `'{}°E'.format(abs(x))`.
The `pos` argument is the tick position passed by matplotlib; the body
never uses it. -/
def lon_formatter (x : Int) (pos : Int) : Option String :=
  if x = 0 ∨ x = 180 then some (Nat.repr x.natAbs ++ "°")
  else if x < 0 then some (Nat.repr x.natAbs ++ "°W")
  else if x > 0 then some (Nat.repr x.natAbs ++ "°E")
  else none

/-- Latitude tick formatter, from src/fmap.py lines 60-66:
`if y<0` return `'{}°S'.format(abs(y))`,
`elif y>0` return `'{}°N'.format(abs(y))`,
`elif y==0` return `'{}°'.format(abs(y))`. -/
def lat_formatter (y : Int) (pos : Int) : Option String :=
  if y < 0 then some (Nat.repr y.natAbs ++ "°S")
  else if y > 0 then some (Nat.repr y.natAbs ++ "°N")
  else if y = 0 then some (Nat.repr y.natAbs ++ "°")
  else none

/-- An axis argument as seen by `isiterable`: matplotlib hands back either
a single Axes object (on which `iter` raises `TypeError`) or an array of
`n` axes (which is iterable).  From src/fmap.py lines 29-35. -/
inductive Axis where
  | single : Axis
  | collection : Nat → Axis
deriving DecidableEq

/-- From src/fmap.py lines 29-35: `iter(obj)` succeeds exactly on
collections of axes, so `isiterable` returns True for a collection and
False for a single axis. -/
def isiterable : Axis → Bool
  | .single => false
  | .collection _ => true

/-- What a `plot_var` call ends up drawing. -/
inductive PlotResult where
  | contourfPlot : PlotResult
  | contourPlot : PlotResult
  | noop : PlotResult
deriving DecidableEq

/-- From src/fmap.py lines 198-262: `plot_var` first checks
`isiterable(axis)` and raises `TypeError` if so; otherwise it dispatches
on `style` ("contourf" / "contour"; any other style silently does
nothing). -/
def plot_var (axis : Axis) (style : String) : Except String PlotResult :=
  if isiterable axis then
    Except.error "axis must be a single instance, not an iterable"
  else
    if style = "contourf" then Except.ok PlotResult.contourfPlot
    else if style = "contour" then Except.ok PlotResult.contourPlot
    else Except.ok PlotResult.noop

/-- From src/fmap.py lines 171-195: `plot_town` branches on
`isiterable(axis)`; with a collection it plots the town once per axis,
with a single axis once.  Neither branch raises.  The result is the
number of marker/text pairs drawn. -/
def plot_town (axis : Axis) : Except String Nat :=
  if isiterable axis then
    match axis with
    | .collection n => Except.ok n
    | .single => Except.ok 1
  else Except.ok 1

/-- From src/fmap.py lines 274-278: `save` forwards to `fig.savefig`,
with `bbox_inches='tight'` exactly when `tight_layout` is true; no
validation. -/
def save (tight_layout : Bool) (dpi : Nat) : Except String (Nat × Bool) :=
  if tight_layout then Except.ok (dpi, true) else Except.ok (dpi, false)

/-- From src/fmap.py lines 265-266: `plot_point_value` forwards a single
`ax.text` call; no validation. -/
def plot_point_value (x y : ℚ) (s : String) : Except String (ℚ × ℚ × String) :=
  Except.ok (x, y, s)

/-- From src/fmap.py lines 268-269: `plot_points` forwards a single
`ax.scatter` call; no validation. -/
def plot_points (x y : ℚ) (size : ℚ) : Except String (ℚ × ℚ × ℚ) :=
  Except.ok (x, y, size)

/-- From src/fmap.py lines 271-272: `add_text` forwards one `ax.text`
call at `(x, y + 0.05)`; no validation. -/
def add_text (x y : ℚ) (s : String) : Except String (ℚ × ℚ × String) :=
  Except.ok (x, y + 1/20, s)

/-- One call into the external plotting library, as issued by the figure
builders.  `setTicks` records the `np.arange(lo, hi, step)` arguments
forwarded to `set_xticks`/`set_yticks`. -/
inductive ExtCall where
  | setExtent : List Int → ExtCall
  | addFeature : String → String → Nat → ExtCall
  | setTicks : String → Int → Int → Int → ExtCall
  | setFormatter : String → ExtCall
  | setTitle : String → ExtCall
deriving DecidableEq

/-- The per-axis configuration sequence shared by the three figure
builders (src/fmap.py lines 43-68, 82-107, 123-148): set the extent to
`[wlon, elon, slat, nlat]`, add STATES and BORDERS, set ticks from
`np.arange(wlon, elon+1, lonticks)` / `np.arange(slat, nlat+1,
latticks)`, and install the two formatters.  `statesEdge` is the STATES
edgecolor ("gray" in `one_plot`/`multi_plot`, "black" in `row_plot`). -/
def axis_setup (wlon elon nlat slat lonticks latticks : Int) (statesEdge : String) :
    List ExtCall :=
  [ExtCall.setExtent [wlon, elon, slat, nlat],
   ExtCall.addFeature "STATES" statesEdge 100,
   ExtCall.addFeature "BORDERS" "black" 99,
   ExtCall.setTicks "x" wlon (elon + 1) lonticks,
   ExtCall.setTicks "y" slat (nlat + 1) latticks,
   ExtCall.setFormatter "x",
   ExtCall.setFormatter "y"]

/-- From src/fmap.py lines 38-71: `one_plot` configures its single axis
and sets the title; it performs no validation of the bounding box. -/
def one_plot (wlon elon nlat slat lonticks latticks : Int) (figtitle : String) :
    Except String (List ExtCall) :=
  Except.ok (axis_setup wlon elon nlat slat lonticks latticks "gray" ++
    [ExtCall.setTitle figtitle])

/-- From src/fmap.py lines 74-109: `row_plot` configures each of its
`cols` axes in turn and sets the suptitle; no validation of the bounding
box. -/
def row_plot (wlon elon nlat slat lonticks latticks : Int) (figtitle : String)
    (cols : Nat) : Except String (List ExtCall) :=
  Except.ok (((List.range cols).map
      (fun _ => axis_setup wlon elon nlat slat lonticks latticks "black")).flatten ++
    [ExtCall.setTitle figtitle])

/-- From src/fmap.py line 123 ff.: the subplot addressed at loop index
`a_n` in `multi_plot` is `axs[a_n//rows, a_n%cols]`. -/
def multi_index (rows cols a_n : Nat) : Nat × Nat :=
  (a_n / rows, a_n % cols)

/-- The configuration loop of `multi_plot` (src/fmap.py lines 122-148):
each flat index addresses the cell `multi_index rows cols a_n`; an
address outside the `rows × cols` grid is an out-of-bounds numpy lookup
(IndexError). -/
def multi_cells (rows cols : Nat) (setup : List ExtCall) :
    List Nat → Except String (List ExtCall)
  | [] => Except.ok []
  | a_n :: rest =>
    if (multi_index rows cols a_n).1 < rows ∧ (multi_index rows cols a_n).2 < cols then
      match multi_cells rows cols setup rest with
      | Except.ok calls => Except.ok (setup ++ calls)
      | Except.error e => Except.error e
    else Except.error "IndexError"

/-- From src/fmap.py lines 113-153: `multi_plot` runs the configuration
loop over `range(rows*cols)` and then sets the suptitle; no validation of
the bounding box. -/
def multi_plot (wlon elon nlat slat lonticks latticks : Int) (figtitle : String)
    (rows cols : Nat) : Except String (List ExtCall) :=
  match multi_cells rows cols (axis_setup wlon elon nlat slat lonticks latticks "gray")
      (List.range (rows * cols)) with
  | Except.ok calls => Except.ok (calls ++ [ExtCall.setTitle figtitle])
  | Except.error e => Except.error e

/-- How many loop iterations of `multi_plot` configure the cell `(r, c)`. -/
def visitCount (rows cols r c : Nat) : Nat :=
  ((List.range (rows * cols)).filter (fun a_n => multi_index rows cols a_n = (r, c))).length

/-- The addressing visits every cell of the `rows × cols` grid exactly
once. -/
def configuresEachCellOnce (rows cols : Nat) : Prop :=
  ∀ r < rows, ∀ c < cols, visitCount rows cols r c = 1

instance (rows cols : Nat) : Decidable (configuresEachCellOnce rows cols) := by
  unfold configuresEachCellOnce
  infer_instance

end Fmap

/-- Every character produced by `Nat.digitChar` is a digit or letter,
never a minus sign. -/
theorem digitChar_ne_minus (m : Nat) : Nat.digitChar m ≠ '-' := by
  rcases Nat.lt_or_ge m 16 with h | h
  · interval_cases m <;> decide
  · unfold Nat.digitChar
    iterate 16 rw [if_neg (by omega)]
    decide

/-- Characters of `Nat.toDigitsCore` come from the accumulator or from
`Nat.digitChar`. -/
theorem mem_toDigitsCore (b f : Nat) :
    ∀ (n : Nat) (ds : List Char) (c : Char), c ∈ Nat.toDigitsCore b f n ds →
      c ∈ ds ∨ ∃ m, c = Nat.digitChar m := by
  induction f with
  | zero => intro n ds c h; exact Or.inl h
  | succ f ih =>
    intro n ds c h
    simp only [Nat.toDigitsCore] at h
    split at h
    · rcases List.mem_cons.mp h with h' | h'
      · exact Or.inr ⟨n % b, h'⟩
      · exact Or.inl h'
    · rcases ih (n / b) (Nat.digitChar (n % b) :: ds) c h with h' | h'
      · rcases List.mem_cons.mp h' with h'' | h''
        · exact Or.inr ⟨n % b, h''⟩
        · exact Or.inl h''
      · exact Or.inr h'

/-- The decimal representation of a natural number contains no minus sign. -/
theorem repr_no_minus (n : Nat) : '-' ∉ (Nat.repr n).data := by
  intro h
  have hmem : '-' ∈ Nat.toDigitsCore 10 (n + 1) n [] := h
  rcases mem_toDigitsCore 10 (n + 1) n [] '-' hmem with h' | ⟨m, hm⟩
  · simp at h'
  · exact digitChar_ne_minus m hm.symm

/-- String append concatenates the underlying character lists. -/
theorem string_data_append (a b : String) : (a ++ b).data = a.data ++ b.data := rfl

/-- Appending suffixes of different lengths to the same string gives
different strings. -/
theorem append_suffix_ne (r s t : String) (h : s.data.length ≠ t.data.length) :
    r ++ s ≠ r ++ t := by
  intro he
  have hl := congrArg (fun u : String => u.data.length) he
  simp only [string_data_append, List.length_append] at hl
  omega

/-- A natural-number numeral followed by a minus-free suffix contains no
minus sign. -/
theorem no_minus_in (n : Nat) (suf : String) (hsuf : '-' ∉ suf.data) :
    '-' ∉ (Nat.repr n ++ suf).data := by
  rw [string_data_append]
  intro h
  rcases List.mem_append.mp h with h | h
  · exact repr_no_minus n h
  · exact hsuf h

namespace Fmap

/-- C1 (counterexample): the input -180 satisfies `x % 180 == 0`, yet the
longitude formatter returns "180°W", with a "W" direction letter, not the
bare "180°" the claim promises: the code tests `x==0 or x==180`, which
does not cover -180. -/
theorem C1_counterexample :
    (-180 : Int) % 180 = 0 ∧
    lon_formatter (-180) 0 = some "180°W" ∧
    lon_formatter (-180) 0 ≠ some "180°" :=
  ⟨by decide, by rfl, by decide⟩

/-- C1 (amended): the longitude formatter returns the magnitude followed by
a bare degree mark and no direction letter exactly when the input is 0 or
180; other multiples of 180 (such as -180 or 360) fall through to the
sign branches and receive a direction letter. -/
theorem C1_bare_degree_iff (x pos : Int) :
    lon_formatter x pos = some (Nat.repr x.natAbs ++ "°") ↔ (x = 0 ∨ x = 180) := by
  constructor
  · intro h
    by_contra hc
    unfold lon_formatter at h
    rw [if_neg hc] at h
    by_cases hneg : x < 0
    · rw [if_pos hneg] at h
      exact append_suffix_ne (Nat.repr x.natAbs) "°W" "°" (by decide) (Option.some.inj h)
    · have hpos : 0 < x := by
        rcases lt_trichotomy x 0 with h1 | h1 | h1
        · exact absurd h1 hneg
        · exact absurd (Or.inl h1) hc
        · exact h1
      rw [if_neg hneg, if_pos hpos] at h
      exact append_suffix_ne (Nat.repr x.natAbs) "°E" "°" (by decide) (Option.some.inj h)
  · intro h
    unfold lon_formatter
    rw [if_pos h]

/-- C5: for inputs with `x % 180 ≠ 0`, the longitude formatter appends "W"
after the degree mark when x is negative and "E" when x is positive. -/
theorem C5_lon_formatter_sign_suffix (x pos : Int) (h : x % 180 ≠ 0) :
    (x < 0 → lon_formatter x pos = some (Nat.repr x.natAbs ++ "°W")) ∧
    (0 < x → lon_formatter x pos = some (Nat.repr x.natAbs ++ "°E")) := by
  have hx0 : x ≠ 0 := by rintro rfl; exact h (by decide)
  have hx180 : x ≠ 180 := by rintro rfl; exact h (by decide)
  have hor : ¬(x = 0 ∨ x = 180) := by
    rintro (h1 | h1)
    · exact hx0 h1
    · exact hx180 h1
  constructor
  · intro hneg
    unfold lon_formatter
    rw [if_neg hor, if_pos hneg]
  · intro hpos
    unfold lon_formatter
    rw [if_neg hor, if_neg (by omega), if_pos hpos]

/-- C5 (witness): at -90 the formatter yields "90°W"; at 90 it yields
"90°E". -/
theorem C5_lon_formatter_sign_suffix_witness :
    lon_formatter (-90) 0 = some (Nat.repr (Int.natAbs (-90)) ++ "°W") ∧
    lon_formatter 90 0 = some (Nat.repr (Int.natAbs 90) ++ "°E") :=
  ⟨(C5_lon_formatter_sign_suffix (-90) 0 (by decide)).1 (by decide),
   (C5_lon_formatter_sign_suffix 90 0 (by decide)).2 (by decide)⟩

/-- C6: the latitude formatter appends "S" after the degree mark for
negative inputs, "N" for positive inputs, and leaves a bare degree mark at
zero. -/
theorem C6_lat_formatter_cases (y pos : Int) :
    (y < 0 → lat_formatter y pos = some (Nat.repr y.natAbs ++ "°S")) ∧
    (0 < y → lat_formatter y pos = some (Nat.repr y.natAbs ++ "°N")) ∧
    (y = 0 → lat_formatter y pos = some (Nat.repr y.natAbs ++ "°")) := by
  refine ⟨fun hneg => ?_, fun hpos => ?_, fun hz => ?_⟩
  · unfold lat_formatter
    rw [if_pos hneg]
  · unfold lat_formatter
    rw [if_neg (by omega), if_pos hpos]
  · unfold lat_formatter
    rw [if_neg (by omega), if_neg (by omega), if_pos hz]

/-- C6 (witness): at -45 the latitude formatter yields "45°S", at 45 it
yields "45°N", and at 0 it yields "0°". -/
theorem C6_lat_formatter_cases_witness :
    lat_formatter (-45) 0 = some (Nat.repr (Int.natAbs (-45)) ++ "°S") ∧
    lat_formatter 45 0 = some (Nat.repr (Int.natAbs 45) ++ "°N") ∧
    lat_formatter 0 0 = some (Nat.repr (Int.natAbs 0) ++ "°") :=
  ⟨(C6_lat_formatter_cases (-45) 0).1 (by decide),
   (C6_lat_formatter_cases 45 0).2.1 (by decide),
   (C6_lat_formatter_cases 0 0).2.2 (by decide)⟩

/-- C7: on every integer degree input both formatters return a string
(some branch always applies), and the string contains no minus sign. -/
theorem C7_formatters_total_no_sign (x pos : Int) :
    (∃ s, lon_formatter x pos = some s ∧ '-' ∉ s.data) ∧
    (∃ s, lat_formatter x pos = some s ∧ '-' ∉ s.data) := by
  constructor
  · by_cases h0 : x = 0 ∨ x = 180
    · refine ⟨Nat.repr x.natAbs ++ "°", ?_, no_minus_in _ _ (by decide)⟩
      unfold lon_formatter; rw [if_pos h0]
    · by_cases hneg : x < 0
      · refine ⟨Nat.repr x.natAbs ++ "°W", ?_, no_minus_in _ _ (by decide)⟩
        unfold lon_formatter; rw [if_neg h0, if_pos hneg]
      · have hpos : 0 < x := by
          rcases lt_trichotomy x 0 with h1 | h1 | h1
          · exact absurd h1 hneg
          · exact absurd (Or.inl h1) h0
          · exact h1
        refine ⟨Nat.repr x.natAbs ++ "°E", ?_, no_minus_in _ _ (by decide)⟩
        unfold lon_formatter; rw [if_neg h0, if_neg hneg, if_pos hpos]
  · by_cases hneg : x < 0
    · refine ⟨Nat.repr x.natAbs ++ "°S", ?_, no_minus_in _ _ (by decide)⟩
      unfold lat_formatter; rw [if_pos hneg]
    · by_cases hpos : 0 < x
      · refine ⟨Nat.repr x.natAbs ++ "°N", ?_, no_minus_in _ _ (by decide)⟩
        unfold lat_formatter; rw [if_neg hneg, if_pos hpos]
      · have hz : x = 0 := by omega
        refine ⟨Nat.repr x.natAbs ++ "°", ?_, no_minus_in _ _ (by decide)⟩
        unfold lat_formatter; rw [if_neg hneg, if_neg hpos, if_pos hz]

/-- C2: `plot_var` signals a type error on every iterable axis argument
whatever the style; on a single axis it always succeeds; and none of the
other module operations ever signals an error — the `plot_var` check is
the module's only explicit validation. -/
theorem C2_plot_var_only_validation :
    (∀ (n : Nat) (style : String),
      plot_var (Axis.collection n) style =
        Except.error "axis must be a single instance, not an iterable") ∧
    (∀ style : String, ∃ r, plot_var Axis.single style = Except.ok r) ∧
    (∀ axis : Axis, ∃ k, plot_town axis = Except.ok k) ∧
    (∀ (tl : Bool) (dpi : Nat), ∃ v, save tl dpi = Except.ok v) ∧
    (∀ (x y : ℚ) (s : String), ∃ v, plot_point_value x y s = Except.ok v) ∧
    (∀ (x y size : ℚ), ∃ v, plot_points x y size = Except.ok v) ∧
    (∀ (x y : ℚ) (s : String), ∃ v, add_text x y s = Except.ok v) := by
  refine ⟨fun n style => rfl, fun style => ?_, fun axis => ?_, fun tl dpi => ?_,
    fun x y s => ⟨_, rfl⟩, fun x y size => ⟨_, rfl⟩, fun x y s => ⟨_, rfl⟩⟩
  · by_cases h1 : style = "contourf"
    · exact ⟨PlotResult.contourfPlot, by simp [plot_var, isiterable, h1]⟩
    · by_cases h2 : style = "contour"
      · exact ⟨PlotResult.contourPlot, by simp [plot_var, isiterable, h1, h2]⟩
      · exact ⟨PlotResult.noop, by simp [plot_var, isiterable, h1, h2]⟩
  · cases axis with
    | single => exact ⟨1, rfl⟩
    | collection n => exact ⟨n, rfl⟩
  · cases tl
    · exact ⟨_, rfl⟩
    · exact ⟨_, rfl⟩

/-- C8: the figure builders accept every bounding box: for all west, east,
north, south values they succeed (no west < east or south < north check),
and the box is forwarded unchanged as `[wlon, elon, slat, nlat]` to the
extent-setting call.  `row_plot` and `multi_plot` are taken at their
default grid sizes (cols = 2, rows = cols = 2). -/
theorem C8_builders_accept_any_bbox (wlon elon nlat slat lonticks latticks : Int)
    (figtitle : String) :
    (∃ calls, one_plot wlon elon nlat slat lonticks latticks figtitle = Except.ok calls ∧
      ExtCall.setExtent [wlon, elon, slat, nlat] ∈ calls) ∧
    (∃ calls, row_plot wlon elon nlat slat lonticks latticks figtitle 2 = Except.ok calls ∧
      ExtCall.setExtent [wlon, elon, slat, nlat] ∈ calls) ∧
    (∃ calls, multi_plot wlon elon nlat slat lonticks latticks figtitle 2 2 =
        Except.ok calls ∧
      ExtCall.setExtent [wlon, elon, slat, nlat] ∈ calls) := by
  refine ⟨⟨_, rfl, ?_⟩, ⟨_, rfl, ?_⟩, ⟨_, rfl, ?_⟩⟩
  · simp [axis_setup]
  · simp [axis_setup, List.range_succ]
  · simp [multi_cells, multi_index, axis_setup, List.range_succ]

/-- The largest loop index of `multi_plot` addresses row `cols - 1`. -/
theorem multi_div_last (rows cols : Nat) (hr : 1 ≤ rows) (hc : 1 ≤ cols) :
    (rows * cols - 1) / rows = cols - 1 := by
  obtain ⟨r, rfl⟩ : ∃ r, rows = r + 1 := ⟨rows - 1, by omega⟩
  obtain ⟨c, rfl⟩ : ∃ c, cols = c + 1 := ⟨cols - 1, by omega⟩
  have h1 : (r + 1) * (c + 1) - 1 = r + (r + 1) * c := by
    have h2 : (r + 1) * (c + 1) = (r + (r + 1) * c) + 1 := by ring
    omega
  rw [h1, Nat.add_mul_div_left r c (Nat.succ_pos r),
    Nat.div_eq_of_lt (Nat.lt_succ_self r)]
  omega

/-- Every row index produced by the addressing is at most `cols - 1`. -/
theorem multi_row_index_le (rows cols a : Nat) (hr : 1 ≤ rows) (hc : 1 ≤ cols)
    (ha : a < rows * cols) : a / rows ≤ cols - 1 := by
  have h1 : a ≤ rows * cols - 1 := by omega
  have h2 : a / rows ≤ (rows * cols - 1) / rows := Nat.div_le_div_right h1
  rwa [multi_div_last rows cols hr hc] at h2

/-- Cells in rows at index `cols` or beyond are never addressed. -/
theorem visitCount_zero_of_late_row (rows cols r c : Nat) (hr : 1 ≤ rows)
    (hc1 : 1 ≤ cols) (hcr : cols ≤ r) : visitCount rows cols r c = 0 := by
  unfold visitCount
  rw [List.length_eq_zero, List.filter_eq_nil_iff]
  intro a ha hp
  have halt : a < rows * cols := List.mem_range.mp ha
  have hle := multi_row_index_le rows cols a hr hc1 halt
  have hpair : multi_index rows cols a = (r, c) := of_decide_eq_true hp
  have hrow : a / rows = r := congrArg Prod.fst hpair
  omega

/-- In an `n × n` grid the addressing hits each cell exactly once:
the unique preimage of `(r, c)` is `n * r + c`. -/
theorem filter_range_eq_single (N x : Nat) (h : x < N) :
    ((List.range N).filter (fun a => decide (a = x))).length = 1 := by
  induction N with
  | zero => omega
  | succ N ih =>
    rw [List.range_succ, List.filter_append, List.length_append]
    by_cases hx : x = N
    · subst hx
      have h0 : (List.range x).filter (fun a => decide (a = x)) = [] := by
        rw [List.filter_eq_nil_iff]
        intro a ha
        have := List.mem_range.mp ha
        simp only [decide_eq_true_eq]
        omega
      rw [h0]
      simp
    · have hxN : x < N := by omega
      have h1 : List.filter (fun a => decide (a = x)) [N] = [] := by
        simp [Ne.symm hx]
      rw [ih hxN, h1]
      simp

/-- In a square `n × n` grid the loop configures each cell exactly once:
the unique loop index reaching `(r, c)` is `n * r + c`. -/
theorem visitCount_square (n r c : Nat) (hn : 1 ≤ n) (hr : r < n) (hc : c < n) :
    visitCount n n r c = 1 := by
  unfold visitCount
  have hcong : ∀ a ∈ List.range (n * n),
      decide (multi_index n n a = (r, c)) = decide (a = n * r + c) := by
    intro a _
    apply decide_eq_decide.mpr
    unfold multi_index
    constructor
    · intro hpair
      have h1 : a / n = r := congrArg Prod.fst hpair
      have h2 : a % n = c := congrArg Prod.snd hpair
      have h3 := Nat.div_add_mod a n
      rw [h1, h2] at h3
      exact h3.symm
    · intro ha'
      subst ha'
      have hdiv : (n * r + c) / n = r := by
        rw [Nat.mul_add_div (by omega), Nat.div_eq_of_lt hc]
        omega
      have hmod : (n * r + c) % n = c := by
        rw [Nat.mul_add_mod]
        exact Nat.mod_eq_of_lt hc
      rw [hdiv, hmod]
  rw [List.filter_congr hcong]
  apply filter_range_eq_single
  calc n * r + c < n * r + n := by omega
    _ = n * (r + 1) := (Nat.mul_succ n r).symm
    _ ≤ n * n := Nat.mul_le_mul_left n hr

/-- When `rows < cols`, the cell `(0, rows)` of the grid is never
configured: indices with row 0 satisfy `a < rows`, so `a % cols = a <
rows`. -/
theorem visitCount_zero_wide (rows cols : Nat) (hr : 1 ≤ rows) (hrc : rows < cols) :
    visitCount rows cols 0 rows = 0 := by
  unfold visitCount
  rw [List.length_eq_zero, List.filter_eq_nil_iff]
  intro a _ hp
  have hpair : multi_index rows cols a = (0, rows) := of_decide_eq_true hp
  unfold multi_index at hpair
  have h1 : a / rows = 0 := congrArg Prod.fst hpair
  have h2 : a % cols = rows := congrArg Prod.snd hpair
  have h3 := Nat.div_add_mod a rows
  rw [h1] at h3
  have h4 : a % rows < rows := Nat.mod_lt a (by omega)
  have h5 : a < rows := by omega
  have h6 : a % cols = a := Nat.mod_eq_of_lt (by omega)
  omega

/-- C9: the `multi_plot` loop addresses `axs[a_n//rows, a_n%cols]`; with
`rows ≥ 1` and `cols ≥ 1` this visits every cell of the grid exactly once
iff `rows = cols`; when `cols > rows` some iteration produces a row index
outside the grid; when `rows > cols` some cell is configured more than
once and every cell in rows `cols` and beyond is never configured. -/
theorem C9_multi_plot_addressing :
    (∀ rows cols : Nat, 1 ≤ rows → 1 ≤ cols →
      (configuresEachCellOnce rows cols ↔ rows = cols)) ∧
    (∀ rows cols : Nat, 1 ≤ rows → rows < cols →
      ∃ a_n, a_n < rows * cols ∧ rows ≤ (multi_index rows cols a_n).1) ∧
    (∀ rows cols : Nat, 1 ≤ cols → cols < rows →
      (∃ a_n b_n, a_n < rows * cols ∧ b_n < rows * cols ∧ a_n ≠ b_n ∧
        multi_index rows cols a_n = multi_index rows cols b_n) ∧
      (∀ r c : Nat, cols ≤ r → r < rows → c < cols → visitCount rows cols r c = 0)) := by
  refine ⟨fun rows cols hr hc => ⟨fun honce => ?_, fun heq => ?_⟩,
    fun rows cols hr hrc => ?_, fun rows cols hc hcr => ⟨?_, fun r c h1 h2 h3 => ?_⟩⟩
  · by_contra hne
    rcases Nat.lt_or_ge rows cols with hlt | hge
    · have hone := honce 0 (by omega) rows hlt
      rw [visitCount_zero_wide rows cols hr hlt] at hone
      omega
    · have hcl : cols < rows := by omega
      have hone := honce cols hcl 0 (by omega)
      rw [visitCount_zero_of_late_row rows cols cols 0 hr hc (le_refl cols)] at hone
      omega
  · subst heq
    intro r hrlt c hclt
    exact visitCount_square rows r c hr hrlt hclt
  · refine ⟨rows * cols - 1,
      Nat.sub_lt (Nat.mul_pos (by omega) (by omega)) (by omega), ?_⟩
    show rows ≤ (rows * cols - 1) / rows
    rw [multi_div_last rows cols hr (by omega)]
    omega
  · refine ⟨0, cols, Nat.mul_pos (by omega) (by omega), ?_, by omega, ?_⟩
    · calc cols < 2 * cols := by omega
        _ ≤ rows * cols := Nat.mul_le_mul_right cols (by omega)
    · unfold multi_index
      rw [Nat.zero_div, Nat.zero_mod, Nat.div_eq_of_lt hcr, Nat.mod_self]
  · exact visitCount_zero_of_late_row rows cols r c (by omega) hc h1

/-- C9 (witness): on the square 2×2 grid the addressing is exactly-once;
with rows=2, cols=3 some iteration leaves the grid; with rows=3, cols=2
a cell is configured twice and row 2 is never configured. -/
theorem C9_multi_plot_addressing_witness :
    (configuresEachCellOnce 2 2 ↔ 2 = 2) ∧
    (∃ a_n, a_n < 2 * 3 ∧ 2 ≤ (multi_index 2 3 a_n).1) ∧
    ((∃ a_n b_n, a_n < 3 * 2 ∧ b_n < 3 * 2 ∧ a_n ≠ b_n ∧
        multi_index 3 2 a_n = multi_index 3 2 b_n) ∧
      (∀ r c : Nat, 2 ≤ r → r < 3 → c < 2 → visitCount 3 2 r c = 0)) :=
  ⟨C9_multi_plot_addressing.1 2 2 (by decide) (by decide),
   C9_multi_plot_addressing.2.1 2 3 (by decide) (by decide),
   C9_multi_plot_addressing.2.2 3 2 (by decide) (by decide)⟩

/-- C10: both formatters ignore the tick-position argument: the output
depends only on the coordinate value. -/
theorem C10_formatters_position_independent (x p1 p2 : Int) :
    lon_formatter x p1 = lon_formatter x p2 ∧
    lat_formatter x p1 = lat_formatter x p2 :=
  ⟨rfl, rfl⟩

/-- A subplot handle as handed back by the underlying library: a single
object when the grid is 1×1, a flat sequence when exactly one dimension
is 1, a two-dimensional grid otherwise.  Handles are opaque and modelled
by numeric ids. -/
inductive AxesHandle where
  | scalar : Nat → AxesHandle
  | flat : List Nat → AxesHandle
  | grid2d : List (List Nat) → AxesHandle
deriving DecidableEq

/-- Modelled from the spec: the axes-grid normalizer (spec section 4.1)
is not present in src/fmap.py.  Policy, keyed on the intended counts:
rows=1, cols=1 wraps the single handle as a 1×1 grid; rows>1, cols=1
transposes the flat sequence into a rows×1 column; rows=1, cols>1 wraps
the flat sequence as a single row; rows>1, cols>1 passes the handle
through unchanged.  Combinations where the handle kind does not match
the counts are undefined by the spec; here they coerce in the least
surprising way. -/
def normalize_axes (handle : AxesHandle) (rows cols : Nat) : List (List Nat) :=
  if rows = 1 ∧ cols = 1 then
    match handle with
    | .scalar a => [[a]]
    | .flat axs => [axs]
    | .grid2d g => g
  else if cols = 1 then
    match handle with
    | .scalar a => [[a]]
    | .flat axs => axs.map (fun a => [a])
    | .grid2d g => g
  else if rows = 1 then
    match handle with
    | .scalar a => [[a]]
    | .flat axs => [axs]
    | .grid2d g => g
  else
    match handle with
    | .scalar a => [[a]]
    | .flat axs => [axs]
    | .grid2d g => g

/-- A grid has shape `r × c` when it has `r` rows each of length `c`. -/
def hasShape (g : List (List Nat)) (r c : Nat) : Prop :=
  g.length = r ∧ ∀ row ∈ g, row.length = c

instance (g : List (List Nat)) (r c : Nat) : Decidable (hasShape g r c) := by
  unfold hasShape
  infer_instance

/-- C3: the normalizer returns a strictly two-dimensional rows×cols grid:
a scalar handle at 1×1 becomes a (1,1) grid; a 3-element flat handle at
3×1 becomes a (3,1) grid and at 1×3 a (1,3) grid; at 2×2 a 2-D handle is
passed through unchanged. -/
theorem C3_normalize_axes_shapes :
    (∀ a : Nat, hasShape (normalize_axes (AxesHandle.scalar a) 1 1) 1 1) ∧
    (∀ axs : List Nat, axs.length = 3 →
      hasShape (normalize_axes (AxesHandle.flat axs) 3 1) 3 1) ∧
    (∀ axs : List Nat, axs.length = 3 →
      hasShape (normalize_axes (AxesHandle.flat axs) 1 3) 1 3) ∧
    (∀ g : List (List Nat), normalize_axes (AxesHandle.grid2d g) 2 2 = g) := by
  refine ⟨fun a => ?_, fun axs h => ?_, fun axs h => ?_, fun g => rfl⟩
  · exact ⟨rfl, by simp [normalize_axes]⟩
  · constructor
    · simp [normalize_axes, h]
    · intro row hrow
      simp only [normalize_axes] at hrow
      norm_num at hrow
      rcases hrow with ⟨a, _, rfl⟩
      rfl
  · exact ⟨rfl, by
      intro row hrow
      simp only [normalize_axes] at hrow
      norm_num at hrow
      rw [hrow]
      exact h⟩

/-- C3 (witness): concrete handles of the stated sizes normalize to the
stated shapes. -/
theorem C3_normalize_axes_shapes_witness :
    hasShape (normalize_axes (AxesHandle.scalar 7) 1 1) 1 1 ∧
    hasShape (normalize_axes (AxesHandle.flat [1, 2, 3]) 3 1) 3 1 ∧
    hasShape (normalize_axes (AxesHandle.flat [1, 2, 3]) 1 3) 1 3 ∧
    normalize_axes (AxesHandle.grid2d [[1, 2], [3, 4]]) 2 2 = [[1, 2], [3, 4]] :=
  ⟨C3_normalize_axes_shapes.1 7,
   C3_normalize_axes_shapes.2.1 [1, 2, 3] (by decide),
   C3_normalize_axes_shapes.2.2.1 [1, 2, 3] (by decide),
   C3_normalize_axes_shapes.2.2.2 [[1, 2], [3, 4]]⟩

/-- Label-placement policy selector. -/
inductive LabelMode where
  | all : LabelMode
  | outer : LabelMode
deriving DecidableEq

/-- Modelled from the spec: the label-placement mode (spec section 4.4)
is not present in src/fmap.py.  Whether the subplot at zero-indexed
`(r, c)` of a `rows × cols` grid receives a longitude axis label:
"all" labels every subplot; "outer" labels only the bottom row. -/
def lon_label_applied (mode : LabelMode) (rows cols r c : Nat) : Bool :=
  match mode with
  | .all => true
  | .outer => decide (r = rows - 1)

/-- Modelled from the spec: whether the subplot at `(r, c)` receives a
latitude axis label: "all" labels every subplot; "outer" labels only the
leftmost column. -/
def lat_label_applied (mode : LabelMode) (rows cols r c : Nat) : Bool :=
  match mode with
  | .all => true
  | .outer => decide (c = 0)

/-- C4: on a 3×3 grid, "outer" mode applies longitude labels exactly to
subplots in row 2 and latitude labels exactly to subplots in column 0,
while "all" mode applies both labels to every subplot. -/
theorem C4_label_placement_3x3 (r c : Nat) (hr : r < 3) (hc : c < 3) :
    (lon_label_applied LabelMode.outer 3 3 r c = true ↔ r = 2) ∧
    (lat_label_applied LabelMode.outer 3 3 r c = true ↔ c = 0) ∧
    lon_label_applied LabelMode.all 3 3 r c = true ∧
    lat_label_applied LabelMode.all 3 3 r c = true := by
  refine ⟨?_, ?_, rfl, rfl⟩
  · simp [lon_label_applied]
  · simp [lat_label_applied]

/-- C4 (witness): at subplot (2,0) "outer" applies both labels; at (2,1)
only the longitude label; at (0,0) only the latitude label; "all" labels
(1,1). -/
theorem C4_label_placement_3x3_witness :
    (lon_label_applied LabelMode.outer 3 3 2 1 = true ↔ (2 : Nat) = 2) ∧
    (lat_label_applied LabelMode.outer 3 3 0 0 = true ↔ (0 : Nat) = 0) ∧
    lon_label_applied LabelMode.all 3 3 1 1 = true ∧
    lat_label_applied LabelMode.all 3 3 1 1 = true :=
  ⟨(C4_label_placement_3x3 2 1 (by decide) (by decide)).1,
   (C4_label_placement_3x3 0 0 (by decide) (by decide)).2.1,
   (C4_label_placement_3x3 1 1 (by decide) (by decide)).2.2.1,
   (C4_label_placement_3x3 1 1 (by decide) (by decide)).2.2.2⟩

end Fmap
